import Mathlib

/-!
Verification of the per-guild playback session, voice-resilience and media-cache
core of `src/main.py` (class `MusicBot`).

The embedding models the per-guild session state exactly as the Python code keeps
it: `self.queues[gid]` (a FIFO list of track dicts), `self.current_track[gid]`,
`self.last_tracks[gid]` and the track object captured by the active sink's
completion callback.  All of these dictionaries are keyed by guild id and the
entries for different guilds are completely independent, so the model describes
one guild's entry of each dictionary; the theorems therefore hold for every
guild.

Track dicts in Python are mutable objects owned by whichever container holds
them; `dict.copy()` creates a fresh object.  We model object identity with an
`id` field: moving a track keeps its `id`, while every `copy()` allocates a
fresh `id` from a monotone counter `nextId`.

External, awaited services (voice client availability, FFmpeg/`vc.play` sink
setup, `prepare_track` re-resolution) are modelled as oracles consulted through
per-service counters, mirroring that each call site performs one external call.
-/

set_option autoImplicit false

namespace Mzika

/-- A track dict produced by `prepare_track`: `id` models Python object
identity, `url` the playable source locator (`track["url"]`), `retryCount` the
`_retry_count` entry and `panelSent` the `_panel_sent` entry. -/
structure Track where
  id : Nat
  url : Nat
  retryCount : Nat
  panelSent : Bool
deriving DecidableEq, Repr

/-- The per-guild slice of the `MusicBot` session state: `queue` is
`self.queues[gid]`, `current` is `self.current_track.get(gid)`, `last` is
`self.last_tracks.get(gid)` and `sink` is the track object captured by the
`after` callback registered with `vc.play` (pending until the callback fires).
`nextId` is the object-identity allocator; `sinkCtr`, `refreshCtr`, `vcCtr`
count the external calls made so far; `attempts` logs the id of every track for
which a sink setup (`discord.FFmpegPCMAudio` + `vc.play`) was attempted;
`panels` logs the id of every track announced via `_send_track_panel`. -/
structure Sess where
  queue : List Track
  current : Option Track
  last : Option Track
  sink : Option Track
  nextId : Nat
  sinkCtr : Nat
  refreshCtr : Nat
  vcCtr : Nat
  attempts : List Nat
  panels : List Nat
deriving DecidableEq, Repr

/-- Oracles for the awaited external services, plus the static configuration
`track_retry_limit` (`TRACK_RETRY_LIMIT`, clamped to `max(0, ...)`, hence a
`Nat`).  `vcOk n` is the result of the n-th voice-client lookup
(`guild.voice_client or await self._ensure_voice(guild)`); `sinkOk n` tells
whether the n-th sink setup succeeds (both `discord.FFmpegPCMAudio(...)` and
`vc.play(...)` may raise; the two `except` handlers in `_start_next_track` are
textually identical, so the two failure points are collapsed into one outcome);
`refresh n` is the result of the n-th `_refresh_track_source` call: `some u`
when `prepare_track` returned a fresh playable locator `u`, `none` when it
failed or returned no `url`. -/
structure Env where
  limit : Nat
  vcOk : Nat → Bool
  sinkOk : Nat → Bool
  refresh : Nat → Option Nat

/-- Models `_start_next_track` lines 663-665: `previous = self.current_track.get(...)`;
if present, `self.last_tracks[gid] = previous.copy()`.  The copy is a fresh
object, hence a fresh `id`. -/
def advanceLast (s : Sess) : Sess :=
  match s.current with
  | some prev => { s with last := some { prev with id := s.nextId }, nextId := s.nextId + 1 }
  | none => s

/-- Models `_start_next_track` lines 670-676 after a successful voice-client lookup:
`track = queue.pop(0)`, bump the voice-client counter, set
`self.current_track[gid] = track`, and account one sink-setup attempt for this
track (`discord.FFmpegPCMAudio` is about to be called). -/
def popAttempt (s : Sess) (t : Track) (rest : List Track) : Sess :=
  { s with queue := rest, vcCtr := s.vcCtr + 1, current := some t,
           attempts := s.attempts ++ [t.id], sinkCtr := s.sinkCtr + 1 }

/-- Models `_start_next_track` lines 672-675 when no voice client is available:
`queue.insert(0, track)` undoes the pop and `self.current_track.pop(gid)`
clears the current slot. -/
def noVc (s : Sess) : Sess :=
  { s with vcCtr := s.vcCtr + 1, current := none }

/-- Models `_start_next_track` lines 692-713 after `vc.play` succeeded: the `after`
callback closes over the track (`sink := track`), and
`track.pop("_panel_sent", False)` removes the flag from the (shared) track
object; if the flag was set the panel announcement is skipped, otherwise
`_send_track_panel` announces the track. -/
def playSet (s : Sess) (t : Track) : Sess :=
  { s with sink := some { t with panelSent := false },
           current := some { t with panelSent := false } }

/-- Panel announcement decision at the end of `_start_next_track` (lines
711-713), after `playSet` recorded the playing track. -/
def playOk (s : Sess) (t : Track) : Sess :=
  if t.panelSent then playSet s t
  else { playSet s t with panels := (playSet s t).panels ++ [t.id] }

/-- Models `_start_next_track` lines 688-689 / 704-705 when a retry was denied after a
sink-setup failure: `queue.insert(0, track)` and `self.current_track.pop(gid)`
(the code then recursively calls `_start_next_track`). -/
def reinsert (s : Sess) (t : Track) : Sess :=
  { s with queue := t :: s.queue, current := none }

/-- Models `_retry_track_playback` lines 618-633, without the final
`await self._start_next_track(guild)` (which the full wrapper
`retryTrackPlayback` below adds back): returns whether the retry was granted
together with the state after the grant decision.
Line 618: `if self.track_retry_limit <= 0: return False`.
Lines 620-623: `attempts = track.get("_retry_count", 0)`;
`if attempts >= self.track_retry_limit: return False`.
Lines 624-626: `refreshed = await self._refresh_track_source(track)`;
`if not refreshed: return False` (the refresh call consumes one oracle step; on
failure `_refresh_track_source` leaves the track unmodified).
Lines 627-633 on grant: `track["url"]` is overwritten with the re-resolved
locator, `track["_retry_count"] = attempts + 1`, `track["_panel_sent"] = True`,
`queue.insert(0, track)`, `self.current_track.pop(guild.id, None)`. -/
def retryCore (env : Env) (s : Sess) (t : Track) : Bool × Sess :=
  if env.limit = 0 then (false, s)
  else if env.limit ≤ t.retryCount then (false, s)
  else
    match env.refresh s.refreshCtr with
    | none => (false, { s with refreshCtr := s.refreshCtr + 1 })
    | some u =>
      (true,
        { s with
          refreshCtr := s.refreshCtr + 1,
          queue := { t with
                     url := u, retryCount := t.retryCount + 1,
                     panelSent := true } :: s.queue,
          current := none })

/-- Models `_start_next_track` (lines 662-713).  The Python function recurses into
itself (directly on the retry-denied path, and through
`_retry_track_playback`); `fuel` bounds that recursion depth, and an
out-of-fuel run returns the state unchanged.  Cache lookups and downloads
performed by `_get_local_source` do not touch the session dictionaries and are
modelled separately (see the cache section). -/
def startNextTrack (env : Env) : Nat → Sess → Sess
  | 0, s => s
  | fuel + 1, s =>
    match (advanceLast s).queue with
    | [] => { advanceLast s with current := none }
    | t :: rest =>
      if env.vcOk (advanceLast s).vcCtr then
        if env.sinkOk (advanceLast s).sinkCtr then
          playOk (popAttempt (advanceLast s) t rest) t
        else
          if (retryCore env (popAttempt (advanceLast s) t rest) t).1 then
            startNextTrack env fuel (retryCore env (popAttempt (advanceLast s) t rest) t).2
          else
            startNextTrack env fuel
              (reinsert (retryCore env (popAttempt (advanceLast s) t rest) t).2 t)
      else noVc (advanceLast s)

/-- Models `_retry_track_playback` (lines 612-635) in full: the grant decision of
`retryCore` followed, on grant, by `await self._start_next_track(guild)`
(line 634). -/
def retryTrackPlayback (env : Env) (fuel : Nat) (s : Sess) (t : Track) : Bool × Sess :=
  if (retryCore env s t).1 then (true, startNextTrack env fuel (retryCore env s t).2)
  else (false, (retryCore env s t).2)

/-- Models `_handle_track_end` (lines 604-610), fired by the sink's completion
callback.  The callback fires once for the track object it closed over
(`sink`); if no callback is pending the event is a no-op.  On error it attempts
`_retry_track_playback` and, if the retry was not granted, falls through to
`_start_next_track`; without error it goes straight to `_start_next_track`. -/
def handleTrackEnd (env : Env) (fuel : Nat) (s : Sess) (error : Bool) : Sess :=
  match s.sink with
  | none => s
  | some t =>
    if error then
      if (retryTrackPlayback env fuel { s with sink := none } t).1 then
        (retryTrackPlayback env fuel { s with sink := none } t).2
      else startNextTrack env fuel (retryTrackPlayback env fuel { s with sink := none } t).2
    else startNextTrack env fuel { s with sink := none }

/-- Models `play_ar` + `add_to_queue` (lines 991-1016, 775-781): `prepare_track`
builds a fresh track dict (`_retry_count` absent = 0), `play_ar` sets
`_panel_sent = True` when the guild has no current track (`is_first`), then
`add_to_queue` appends it to the queue and, if the guild still has no current
track, calls `_start_next_track`.  (The prefetch kickoff touches only the cache,
not the session dictionaries.) -/
def enqueueTrack (s : Sess) : Sess :=
  { s with
    queue := s.queue ++
      [{ id := s.nextId, url := 0, retryCount := 0, panelSent := s.current.isNone }],
    nextId := s.nextId + 1 }

/-- Appending leaves `current` unchanged, so the `is_first` test of `play_ar`
and the `guild.id not in self.current_track` test of `add_to_queue` agree. -/
def addToQueue (env : Env) (fuel : Nat) (s : Sess) : Sess :=
  if s.current.isNone then startNextTrack env fuel (enqueueTrack s) else enqueueTrack s

/-- Models `stop_track` (lines 796-808): with no voice client it only sends a message;
otherwise `guild.voice_client.stop()` (the pending sink completion callback
will still fire, with `error = None`) and `self.current_track.pop(guild.id)`.
The queue and the last-track slot are not touched. -/
def stopTrack (s : Sess) (vcPresent : Bool) : Sess :=
  if vcPresent then { s with current := none } else s

/-- Models `skip_track` (lines 783-794): with a voice client present it only calls
`guild.voice_client.stop()`; the session dictionaries are untouched and the
sink's completion callback later drives the advance. -/
def skipTrack (s : Sess) (vcPresent : Bool) : Sess :=
  if vcPresent then s else s

/-- Models `restart_track` (lines 810-830): `track = current or last`; if none, fail.
`fresh = track.copy()` (a fresh object, fresh `id`), `fresh.pop("_panel_sent")`,
`queue.insert(0, fresh)`, and if there is no voice client or it is not playing,
`_start_next_track`. -/
def restartPush (s : Sess) (t : Track) : Sess :=
  { s with
    queue := { t with id := s.nextId, panelSent := false } :: s.queue,
    nextId := s.nextId + 1 }

/-- Models `restart_track` (lines 810-830), continued: the clone's head insertion is
`restartPush`; `_start_next_track` runs unless a voice client is playing. -/
def restartTrack (env : Env) (fuel : Nat) (s : Sess) (vcPresent playing : Bool) : Sess :=
  match (match s.current with | some t => some t | none => s.last) with
  | none => s
  | some t =>
    if vcPresent && playing then restartPush s t
    else startNextTrack env fuel (restartPush s t)

/-- The session-mutating tail of `_auto_reconnect` (lines 273-280): when the
guild has a current track but the voice client is neither playing nor paused,
`track = self.current_track.pop(gid)`, `track.pop("_panel_sent", None)`,
`queue.insert(0, track)`, `_start_next_track`.  A dead voice client has no
active player, so no completion callback is pending any more (`sink := none`).
-/
def autoReconnectRequeue (env : Env) (fuel : Nat) (s : Sess) (vcBusy : Bool) : Sess :=
  if vcBusy then s
  else
    match s.current with
    | none => s
    | some t =>
      startNextTrack env fuel
        { s with current := none, sink := none,
                 queue := { t with panelSent := false } :: s.queue }

/-- The externally triggered session operations of one guild: a user `play`
command (`enqueue`), the sink completion callback (`trackEnd`, with or without
an error), user `stop` / `skip` / `restart` commands (with the relevant
voice-client observations) and the reconciliation sweep's requeue. -/
inductive Op where
  | enqueue : Op
  | trackEnd : Bool → Op
  | stop : Bool → Op
  | skip : Bool → Op
  | restart : Bool → Bool → Op
  | sweep : Bool → Op

/-- Dispatch one operation. -/
def applyOp (env : Env) (fuel : Nat) (s : Sess) : Op → Sess
  | Op.enqueue => addToQueue env fuel s
  | Op.trackEnd e => handleTrackEnd env fuel s e
  | Op.stop vc => stopTrack s vc
  | Op.skip vc => skipTrack s vc
  | Op.restart vc playing => restartTrack env fuel s vc playing
  | Op.sweep vcBusy => autoReconnectRequeue env fuel s vcBusy

/-- Run a sequence of operations. -/
def runOps (env : Env) (fuel : Nat) : List Op → Sess → Sess
  | [], s => s
  | op :: rest, s => runOps env fuel rest (applyOp env fuel s op)

/-- A guild that has seen no activity: every dictionary lookup misses. -/
def initSess : Sess :=
  { queue := [], current := none, last := none, sink := none, nextId := 0,
    sinkCtr := 0, refreshCtr := 0, vcCtr := 0, attempts := [], panels := [] }

/-! ## Voice resilience: manual-disconnect window, rejoin scheduling, sweep -/

/-- Models `_manual_disconnect_active` (lines 460-467): `ts = self.manual_disconnects.get(gid)`;
`if not ts: return False` (a missing entry — Python's falsiness also treats a
zero timestamp as absent); `if time.time() - ts <= MANUAL_LEAVE_GRACE: return True`;
otherwise the expired entry is purged and the check returns `False` (the purge
only removes an entry that already tests inactive, so it is dropped here). -/
def manualDisconnectActive (mark : Option Nat) (now grace : Nat) : Bool :=
  match mark with
  | none => false
  | some ts => if ts = 0 then false else decide (now - ts ≤ grace)

/-- Models `_mark_manual_disconnect` (lines 457-458): `self.manual_disconnects[gid] = time.time()`. -/
def markManualDisconnect (now : Nat) : Option Nat :=
  some now

/-- Models `_schedule_voice_return` (lines 474-480): returns
`(rejoin task pending afterwards, a new rejoin task was created)`.  If the
manual-disconnect window is active, return immediately; if an unfinished rejoin
task already exists, keep it; otherwise create the delayed rejoin worker. -/
def scheduleVoiceReturn (mark : Option Nat) (now grace : Nat) (pending : Bool) :
    Bool × Bool :=
  if manualDisconnectActive mark now grace then (pending, false)
  else if pending then (pending, false)
  else (true, true)

/-- The conditions `_voice_return_worker` observes when it fires. -/
structure RejoinEnv where
  guildExists : Bool
  storedChannelValid : Bool
  alreadyConnectedToTarget : Bool

/-- Models `_voice_return_worker` (lines 482-502), evaluated at the time `fireTime`
when the 2-second delay elapses: returns whether a `move_to`/`connect` call is
attempted.  The worker re-checks the manual-disconnect window before touching
the voice transport. -/
def voiceReturnWorker (mark : Option Nat) (fireTime grace : Nat) (e : RejoinEnv) : Bool :=
  if e.guildExists then
    if manualDisconnectActive mark fireTime grace then false
    else if e.storedChannelValid then
      if e.alreadyConnectedToTarget then false else true
    else false
  else false

/-- The per-guild conditions the reconciliation sweep observes. -/
structure SweepEnv where
  guildExists : Bool
  channelIsVoice : Bool
  vcPresent : Bool
  vcOnWrongChannel : Bool
  vcConnected : Bool

/-- The connect/move decision of one guild's iteration of `_auto_reconnect`
(lines 249-272): returns whether any `move_to` or `connect` call is attempted.
A guild inside its manual-disconnect window is skipped with `continue` before
any transport call. -/
def autoReconnectAttempt (mark : Option Nat) (now grace : Nat) (e : SweepEnv) : Bool :=
  if e.guildExists then
    if manualDisconnectActive mark now grace then false
    else if e.channelIsVoice then
      if e.vcPresent && e.vcOnWrongChannel then true
      else if !e.vcPresent || !e.vcConnected then true
      else false
    else false
  else false

/-- The per-guild voice bookkeeping touched by the join commands. -/
structure JoinState where
  mark : Option Nat
  storedChannel : Option Nat
  connectedTo : Option Nat
deriving DecidableEq, Repr

/-- Target resolution of `_manual_join` (lines 755-760) and `join` (line 975):
the explicit channel argument, else the caller's current voice channel, else
the stored channel. -/
def joinTarget (chParam userVoice stored : Option Nat) : Option Nat :=
  match chParam with
  | some c => some c
  | none =>
    match userVoice with
    | some c => some c
    | none => stored

/-- Models `_manual_join` (lines 749-773) / the `join` command (lines 973-989):
resolve the target; with no target only a warning is sent.  Otherwise
`vc.move_to(target)` or `target.connect()` is attempted and, on success,
`_record_channel` stores the channel.  Returns the updated state and whether a
connect/move was attempted.  Note that `self.manual_disconnects` is never
touched on this path. -/
def manualJoin (s : JoinState) (chParam userVoice : Option Nat) (connectOk : Bool) :
    JoinState × Bool :=
  match joinTarget chParam userVoice s.storedChannel with
  | none => (s, false)
  | some ch =>
    if connectOk then
      ({ s with connectedTo := some ch, storedChannel := some ch }, true)
    else (s, true)

/-! ## Media cache: eviction and fetch -/

/-- One file of the cache directory as `_cleanup_cache_sync` sees it:
`(stat.st_mtime, stat.st_size, path)`.  `mtime` is the recency stamp (the file
modification time), `path` stands for the unique file path. -/
structure CacheEntry where
  mtime : Nat
  size : Nat
  path : Nat
deriving DecidableEq, Repr

/-- Ascending lexicographic order on `(st_mtime, st_size, path)` — Python
compares the tuples componentwise. -/
def entryLe (a b : CacheEntry) : Bool :=
  decide (a.mtime < b.mtime) ||
    (decide (a.mtime = b.mtime) &&
      (decide (a.size < b.size) ||
        (decide (a.size = b.size) && decide (a.path ≤ b.path))))

/-- Insertion step of the sort. -/
def insertAsc (e : CacheEntry) : List CacheEntry → List CacheEntry
  | [] => [e]
  | f :: rest => if entryLe e f then e :: f :: rest else f :: insertAsc e rest

/-- Models `files.sort(reverse=True)` followed by iterating `reversed(files)` visits
the entries in ascending `(st_mtime, st_size, path)` order, i.e. oldest
(least-recently-modified) first; `sortAsc` produces that visiting order. -/
def sortAsc : List CacheEntry → List CacheEntry
  | [] => []
  | e :: rest => insertAsc e (sortAsc rest)

/-- Line 518/521: `(not max_bytes or total_bytes <= max_bytes) and
(not max_files or total_files <= max_files)`; `none` is a disabled ceiling. -/
def withinLimits (maxB maxF : Option Nat) (tb tf : Nat) : Bool :=
  (match maxB with | none => true | some m => decide (tb ≤ m)) &&
  (match maxF with | none => true | some m => decide (tf ≤ m))

/-- The eviction loop of `_cleanup_cache_sync` (lines 520-529) over the entries
in oldest-first order, carrying the running `total_bytes` and `total_files`:
break as soon as both enabled ceilings are met, otherwise unlink the entry and
decrement the totals.  (`path.unlink()` failures, which the code ignores, are
not modelled: the file system is assumed to honour the unlink.)  Returns
`(entries kept, entries removed in removal order)`. -/
def evictLoop (maxB maxF : Option Nat) : List CacheEntry → Nat → Nat →
    List CacheEntry × List CacheEntry
  | [], _, _ => ([], [])
  | e :: rest, tb, tf =>
    if withinLimits maxB maxF tb tf then (e :: rest, [])
    else
      ((evictLoop maxB maxF rest (tb - e.size) (tf - 1)).1,
        e :: (evictLoop maxB maxF rest (tb - e.size) (tf - 1)).2)

/-- Models `_cleanup_cache_sync` (lines 504-529): list the files, sort, compute
`total_bytes` / `total_files` (on the sorted list — the sort happens first),
derive the enabled ceilings (`CACHE_MAX_BYTES if CACHE_MAX_BYTES > 0 else
None`, same for files), return early when already within the ceilings, else run
the eviction loop oldest-first.  Returns `(kept, removed)`. -/
def cleanupCacheSync (maxBytes maxFiles : Int) (files : List CacheEntry) :
    List CacheEntry × List CacheEntry :=
  let sorted := sortAsc files
  let totalBytes := (sorted.map CacheEntry.size).sum
  let totalFiles := sorted.length
  let maxB : Option Nat := if 0 < maxBytes then some maxBytes.toNat else none
  let maxF : Option Nat := if 0 < maxFiles then some maxFiles.toNat else none
  if withinLimits maxB maxF totalBytes totalFiles then (sorted, [])
  else evictLoop maxB maxF sorted totalBytes totalFiles

/-- Models `_enforce_cache_limits` (lines 531-535): skip entirely when both ceilings
are disabled, else run `_cleanup_cache_sync`; returns the kept entries. -/
def enforceCacheLimits (maxBytes maxFiles : Int) (files : List CacheEntry) :
    List CacheEntry :=
  if maxBytes ≤ 0 ∧ maxFiles ≤ 0 then files
  else (cleanupCacheSync maxBytes maxFiles files).1

/-- The track fields `_fetch_cache` reads: `cache_path` and the download source
(`webpage_url or original_query`, collapsed into one optional locator). -/
structure FetchTrack where
  cachePath : Option Nat
  sourceRef : Option Nat
deriving DecidableEq, Repr

/-- Models `dest.exists()` for the modelled directory. -/
def cacheHas (cache : List CacheEntry) (p : Nat) : Bool :=
  cache.any fun e => e.path = p

/-- Result of `_fetch_cache`: the directory afterwards, the returned local
path, whether a download was performed and whether `_enforce_cache_limits` was
triggered. -/
structure FetchOutcome where
  cache : List CacheEntry
  result : Option Nat
  downloaded : Bool
  evictTriggered : Bool
deriving DecidableEq, Repr

/-- Models `_fetch_cache` (lines 537-559): no `cache_path` → `None`; `dest.exists()` →
return the cached path immediately (nothing else happens: no download, no
eviction, and in particular the entry's recency stamp is not touched); no
download source → `None`; otherwise download under the process-wide
semaphore/lock gate (`downloadOk` collapses "the download raised" and "the
download completed but did not materialise `dest`", both of which return `None`
without eviction); when `dest` exists afterwards, a fresh entry stamped with
the current time is in the directory and `_enforce_cache_limits` runs. -/
def fetchCache (maxBytes maxFiles : Int) (now : Nat) (cache : List CacheEntry)
    (t : FetchTrack) (downloadOk : Bool) (dlSize : Nat) : FetchOutcome :=
  match t.cachePath with
  | none => ⟨cache, none, false, false⟩
  | some p =>
    if cacheHas cache p then ⟨cache, some p, false, false⟩
    else
      match t.sourceRef with
      | none => ⟨cache, none, false, false⟩
      | some _ =>
        if downloadOk then
          ⟨enforceCacheLimits maxBytes maxFiles (⟨now, dlSize, p⟩ :: cache), some p, true, true⟩
        else ⟨cache, none, true, false⟩

/-! ## Fade-in ramp -/

/-- The loop body of `_fade_in_source` (lines 592-595): iterate
`idx = startIdx, ...` for `rem` more iterations; each iteration first sleeps
(where a cancellation can be delivered: `cancelAt = some idx`) and then sets
`source.volume = target * (idx / steps)`.  Returns the volume when the loop
exits together with whether it was cancelled. -/
def fadeLoop (target : ℚ) (steps : Nat) (cancelAt : Option Nat) :
    Nat → Nat → ℚ → ℚ × Bool
  | 0, _, vol => (vol, false)
  | rem + 1, idx, vol =>
    if cancelAt = some idx then (vol, true)
    else fadeLoop target steps cancelAt rem (idx + 1) (target * (idx : ℚ) / (steps : ℚ))

/-- Models `_fade_in_source` (lines 588-602) with `steps = 10`: run the ramp loop; the
`except asyncio.CancelledError` handler sets `source.volume = target` (and
re-raises); the `finally` clause sets `source.volume = target` on every exit
path.  Returns the sink volume after the task finishes and whether the run was
cancelled. -/
def fadeInSource (target : ℚ) (cancelAt : Option Nat) (v0 : ℚ) : ℚ × Bool :=
  let body := fadeLoop target 10 cancelAt 10 1 v0
  let _vAfterExcept : ℚ := if body.2 then target else body.1
  (target, body.2)

/-! ## The ownership invariant of the session state -/

/-- The object identities of the tracks of a list. -/
def tids (l : List Track) : List Nat := l.map Track.id

/-- Ownership invariant over the components of a session: the queue holds
pairwise distinct track objects, the `current` and `last` slots never alias a
queued track or each other, the track captured by a pending sink callback may
alias `current` but never a queued or `last` track, and every held identity was
allocated below `nextId`. -/
structure InvC (q : List Track) (cur lst snk : Option Track) (n : Nat) : Prop where
  nodup : (tids q).Nodup
  curQ : ∀ c, cur = some c → c.id ∉ tids q
  lastQ : ∀ l, lst = some l → l.id ∉ tids q
  curLast : ∀ c l, cur = some c → lst = some l → c.id ≠ l.id
  sinkQ : ∀ t, snk = some t → t.id ∉ tids q
  sinkLast : ∀ t l, snk = some t → lst = some l → t.id ≠ l.id
  qLt : ∀ i ∈ tids q, i < n
  curLt : ∀ c, cur = some c → c.id < n
  lastLt : ∀ l, lst = some l → l.id < n
  sinkLt : ∀ t, snk = some t → t.id < n

/-- The invariant of a session state. -/
def Inv (s : Sess) : Prop := InvC s.queue s.current s.last s.sink s.nextId

theorem invC_currentNone {q : List Track} {cur lst snk : Option Track} {n : Nat}
    (h : InvC q cur lst snk n) : InvC q none lst snk n :=
  ⟨h.nodup, fun _ hc => (nomatch hc), h.lastQ, fun _ _ hc _ => (nomatch hc), h.sinkQ,
   h.sinkLast, h.qLt, fun _ hc => (nomatch hc), h.lastLt, h.sinkLt⟩

theorem invC_sinkNone {q : List Track} {cur lst snk : Option Track} {n : Nat}
    (h : InvC q cur lst snk n) : InvC q cur lst none n :=
  ⟨h.nodup, h.curQ, h.lastQ, h.curLast, fun _ hc => (nomatch hc),
   fun _ _ hc _ => (nomatch hc), h.qLt, h.curLt, h.lastLt, fun _ hc => (nomatch hc)⟩

/-- Copying the current track into `last` with a fresh identity. -/
theorem invC_newLast {q : List Track} {prev : Track} {lst snk : Option Track} {n : Nat}
    (h : InvC q (some prev) lst snk n) :
    InvC q (some prev) (some { prev with id := n }) snk (n + 1) := by
  refine ⟨h.nodup, h.curQ, ?_, ?_, h.sinkQ, ?_, ?_, ?_, ?_, ?_⟩
  · intro l hl hm
    cases hl
    exact absurd (h.qLt _ hm) (by simp)
  · intro c l hc hl
    cases hl
    exact Nat.ne_of_lt (h.curLt c hc)
  · intro t l ht hl
    cases hl
    exact Nat.ne_of_lt (h.sinkLt t ht)
  · exact fun i hi => Nat.lt_succ_of_lt (h.qLt i hi)
  · exact fun c hc => Nat.lt_succ_of_lt (h.curLt c hc)
  · intro l hl
    cases hl
    exact Nat.lt_succ_self n
  · exact fun t ht => Nat.lt_succ_of_lt (h.sinkLt t ht)

/-- Popping the queue head into the `current` slot. -/
theorem invC_pop {t : Track} {rest : List Track} {cur lst snk : Option Track} {n : Nat}
    (h : InvC (t :: rest) cur lst snk n) : InvC rest (some t) lst snk n := by
  have hnd : t.id ∉ tids rest ∧ (tids rest).Nodup := List.nodup_cons.mp h.nodup
  refine ⟨hnd.2, ?_, ?_, ?_, ?_, h.sinkLast, ?_, ?_, h.lastLt, h.sinkLt⟩
  · intro c hc
    cases hc
    exact hnd.1
  · exact fun l hl hm => h.lastQ l hl (List.mem_cons_of_mem _ hm)
  · intro c l hc hl he
    cases hc
    exact h.lastQ l hl (he ▸ List.mem_cons_self _ _)
  · exact fun t' ht' hm => h.sinkQ t' ht' (List.mem_cons_of_mem _ hm)
  · exact fun i hi => h.qLt i (List.mem_cons_of_mem _ hi)
  · intro c hc
    cases hc
    exact h.qLt t.id (List.mem_cons_self _ _)

/-- Registering the sink callback for the track just made current (the sink and
the `current` slot hold the same object). -/
theorem invC_playSet {q : List Track} {lst snk : Option Track} {n : Nat} {t t2 : Track}
    (h : InvC q (some t) lst snk n) (hid : t2.id = t.id) :
    InvC q (some t2) lst (some t2) n := by
  refine ⟨h.nodup, ?_, h.lastQ, ?_, ?_, ?_, h.qLt, ?_, h.lastLt, ?_⟩
  · intro c hc
    cases hc
    exact hid ▸ h.curQ t rfl
  · intro c l hc hl
    cases hc
    exact hid ▸ h.curLast t l rfl hl
  · intro t' ht'
    cases ht'
    exact hid ▸ h.curQ t rfl
  · intro t' l ht' hl
    cases ht'
    exact hid ▸ h.curLast t l rfl hl
  · intro c hc
    cases hc
    exact hid ▸ h.curLt t rfl
  · intro t' ht'
    cases ht'
    exact hid ▸ h.curLt t rfl

/-- Inserting at the queue head a track that aliases nothing currently held,
while clearing `current`. -/
theorem invC_insertHead {q : List Track} {cur lst snk : Option Track} {n : Nat} {t : Track}
    (h : InvC q cur lst snk n)
    (htQ : t.id ∉ tids q)
    (htLast : ∀ l, lst = some l → t.id ≠ l.id)
    (htSink : ∀ t', snk = some t' → t.id ≠ t'.id)
    (htLt : t.id < n) :
    InvC (t :: q) none lst snk n := by
  refine ⟨List.nodup_cons.mpr ⟨htQ, h.nodup⟩, fun _ hc => (nomatch hc), ?_,
    fun _ _ hc _ => (nomatch hc), ?_, h.sinkLast, ?_, fun _ hc => (nomatch hc),
    h.lastLt, h.sinkLt⟩
  · intro l hl hm
    rcases List.mem_cons.mp hm with he | hm2
    · exact htLast l hl he.symm
    · exact h.lastQ l hl hm2
  · intro t' ht' hm
    rcases List.mem_cons.mp hm with he | hm2
    · exact htSink t' ht' he.symm
    · exact h.sinkQ t' ht' hm2
  · intro i hi
    rcases List.mem_cons.mp hi with he | hm2
    · exact he ▸ htLt
    · exact h.qLt i hm2

/-- Appending a freshly allocated track at the queue tail. -/
theorem invC_append {q : List Track} {cur lst snk : Option Track} {n : Nat}
    (h : InvC q cur lst snk n) (t : Track) (ht : t.id = n) :
    InvC (q ++ [t]) cur lst snk (n + 1) := by
  have hq : tids (q ++ [t]) = tids q ++ [t.id] := by simp [tids]
  have hmem : ∀ i, i ∈ tids (q ++ [t]) → i ∈ tids q ∨ i = t.id := by
    intro i hi
    rw [hq] at hi
    rcases List.mem_append.mp hi with hl | hr
    · exact Or.inl hl
    · exact Or.inr (List.mem_singleton.mp hr)
  refine ⟨?_, ?_, ?_, h.curLast, ?_, h.sinkLast, ?_, ?_, ?_, ?_⟩
  · rw [hq]
    refine List.Nodup.append h.nodup (List.nodup_singleton _) ?_
    intro i hi hj
    have := h.qLt i hi
    simp only [List.mem_singleton] at hj
    omega
  · intro c hc hm
    rcases hmem _ hm with hm2 | he
    · exact h.curQ c hc hm2
    · exact absurd (h.curLt c hc) (by omega)
  · intro l hl hm
    rcases hmem _ hm with hm2 | he
    · exact h.lastQ l hl hm2
    · exact absurd (h.lastLt l hl) (by omega)
  · intro t' ht' hm
    rcases hmem _ hm with hm2 | he
    · exact h.sinkQ t' ht' hm2
    · exact absurd (h.sinkLt t' ht') (by omega)
  · intro i hi
    rcases hmem _ hi with hm2 | he
    · exact Nat.lt_succ_of_lt (h.qLt i hm2)
    · omega
  · exact fun c hc => Nat.lt_succ_of_lt (h.curLt c hc)
  · exact fun l hl => Nat.lt_succ_of_lt (h.lastLt l hl)
  · exact fun t' ht' => Nat.lt_succ_of_lt (h.sinkLt t' ht')

/-- Inserting a freshly allocated track at the queue head (the restart clone). -/
theorem invC_insertFresh {q : List Track} {cur lst snk : Option Track} {n : Nat}
    (h : InvC q cur lst snk n) (t : Track) (ht : t.id = n) :
    InvC (t :: q) cur lst snk (n + 1) := by
  refine ⟨?_, ?_, ?_, h.curLast, ?_, h.sinkLast, ?_, ?_, ?_, ?_⟩
  · refine List.nodup_cons.mpr ⟨?_, h.nodup⟩
    intro hm
    exact absurd (h.qLt _ hm) (by omega)
  · intro c hc hm
    rcases List.mem_cons.mp hm with he | hm2
    · exact absurd (h.curLt c hc) (by omega)
    · exact h.curQ c hc hm2
  · intro l hl hm
    rcases List.mem_cons.mp hm with he | hm2
    · exact absurd (h.lastLt l hl) (by omega)
    · exact h.lastQ l hl hm2
  · intro t' ht' hm
    rcases List.mem_cons.mp hm with he | hm2
    · exact absurd (h.sinkLt t' ht') (by omega)
    · exact h.sinkQ t' ht' hm2
  · intro i hi
    rcases List.mem_cons.mp hi with he | hm2
    · omega
    · exact Nat.lt_succ_of_lt (h.qLt i hm2)
  · exact fun c hc => Nat.lt_succ_of_lt (h.curLt c hc)
  · exact fun l hl => Nat.lt_succ_of_lt (h.lastLt l hl)
  · exact fun t' ht' => Nat.lt_succ_of_lt (h.sinkLt t' ht')

theorem advanceLast_inv {s : Sess} (h : Inv s) : Inv (advanceLast s) := by
  unfold advanceLast
  cases hc : s.current with
  | none => exact h
  | some prev =>
    have h2 : InvC s.queue (some prev) s.last s.sink s.nextId := hc ▸ h
    exact invC_newLast h2

/-- Complete case analysis of the grant decision of `_retry_track_playback`:
either the retry is granted and the state gained the refreshed, incremented,
announcement-suppressed track at the queue head with `current` cleared, or it
is denied and (apart from the refresh-call counter) the state is untouched. -/
theorem retryCore_cases (env : Env) (s : Sess) (t : Track) :
    ((retryCore env s t).1 = true ∧
      ∃ u, env.refresh s.refreshCtr = some u ∧
        (retryCore env s t).2 =
          { s with
            refreshCtr := s.refreshCtr + 1,
            queue := { t with
                       url := u, retryCount := t.retryCount + 1,
                       panelSent := true } :: s.queue,
            current := none }) ∨
    ((retryCore env s t).1 = false ∧
      ((retryCore env s t).2 = s ∨
        (retryCore env s t).2 = { s with refreshCtr := s.refreshCtr + 1 })) := by
  unfold retryCore
  split
  · exact Or.inr ⟨rfl, Or.inl rfl⟩
  · split
    · exact Or.inr ⟨rfl, Or.inl rfl⟩
    · cases hr : env.refresh s.refreshCtr with
      | none => exact Or.inr ⟨rfl, Or.inr rfl⟩
      | some u => exact Or.inl ⟨rfl, u, rfl, rfl⟩

/-- A granted or denied retry preserves the ownership invariant, provided the
track offered for retry aliases nothing currently held except possibly the
`current` slot. -/
theorem retryCore_inv {env : Env} {s : Sess} {t : Track} (h : Inv s)
    (htQ : t.id ∉ tids s.queue)
    (htLast : ∀ l, s.last = some l → t.id ≠ l.id)
    (htSink : ∀ t', s.sink = some t' → t.id ≠ t'.id)
    (htLt : t.id < s.nextId) :
    Inv (retryCore env s t).2 := by
  rcases retryCore_cases env s t with ⟨-, u, -, h2⟩ | ⟨-, h2 | h2⟩
  · rw [h2]
    exact invC_insertHead h htQ htLast htSink htLt
  · rw [h2]; exact h
  · rw [h2]; exact h

theorem startNextTrack_inv (env : Env) :
    ∀ (fuel : Nat) (s : Sess), Inv s → Inv (startNextTrack env fuel s) := by
  intro fuel
  induction fuel with
  | zero => exact fun s h => h
  | succ fuel ih =>
    intro s h
    have h1 : Inv (advanceLast s) := advanceLast_inv h
    rw [startNextTrack]
    cases hq : (advanceLast s).queue with
    | nil => exact invC_currentNone h1
    | cons t rest =>
      have h1q : InvC (t :: rest) (advanceLast s).current (advanceLast s).last
          (advanceLast s).sink (advanceLast s).nextId := hq ▸ h1
      have hpop : Inv (popAttempt (advanceLast s) t rest) := invC_pop h1q
      have htQ : t.id ∉ tids rest := (List.nodup_cons.mp h1q.nodup).1
      have htLast : ∀ l, (advanceLast s).last = some l → t.id ≠ l.id := by
        intro l hl he
        exact h1q.lastQ l hl (he ▸ List.mem_cons_self _ _)
      have htSink : ∀ t', (advanceLast s).sink = some t' → t.id ≠ t'.id := by
        intro t' ht' he
        exact h1q.sinkQ t' ht' (he ▸ List.mem_cons_self _ _)
      have htLt : t.id < (advanceLast s).nextId := h1q.qLt t.id (List.mem_cons_self _ _)
      by_cases hvc : env.vcOk (advanceLast s).vcCtr = true
      · by_cases hsk : env.sinkOk (advanceLast s).sinkCtr = true
        · simp only [hvc, hsk, if_true]
          unfold playOk
          split
          · exact invC_playSet hpop rfl
          · exact invC_playSet hpop rfl
        · simp only [hvc, if_true, hsk, if_false]
          by_cases hr : (retryCore env (popAttempt (advanceLast s) t rest) t).1 = true
          · simp only [hr, if_true]
            exact ih _ (retryCore_inv hpop htQ htLast htSink htLt)
          · simp only [hr, if_false]
            rcases retryCore_cases env (popAttempt (advanceLast s) t rest) t with
              ⟨htr, -⟩ | ⟨-, h2 | h2⟩
            · exact absurd htr hr
            · rw [h2]
              exact ih _ (invC_insertHead hpop htQ htLast htSink htLt)
            · rw [h2]
              exact ih _ (invC_insertHead hpop htQ htLast htSink htLt)
      · simp only [hvc, if_false]
        exact invC_currentNone h1

theorem retryTrackPlayback_inv (env : Env) (fuel : Nat) {s : Sess} {t : Track}
    (h : Inv s)
    (htQ : t.id ∉ tids s.queue)
    (htLast : ∀ l, s.last = some l → t.id ≠ l.id)
    (htSink : ∀ t', s.sink = some t' → t.id ≠ t'.id)
    (htLt : t.id < s.nextId) :
    Inv (retryTrackPlayback env fuel s t).2 := by
  unfold retryTrackPlayback
  split
  · exact startNextTrack_inv env fuel _ (retryCore_inv h htQ htLast htSink htLt)
  · exact retryCore_inv h htQ htLast htSink htLt

theorem handleTrackEnd_noSink (env : Env) (fuel : Nat) {s : Sess}
    (hs : s.sink = none) (error : Bool) : handleTrackEnd env fuel s error = s := by
  unfold handleTrackEnd
  rw [hs]

theorem handleTrackEnd_noError (env : Env) (fuel : Nat) {s : Sess} {t : Track}
    (hs : s.sink = some t) :
    handleTrackEnd env fuel s false = startNextTrack env fuel { s with sink := none } := by
  unfold handleTrackEnd
  rw [hs]
  simp

theorem handleTrackEnd_error (env : Env) (fuel : Nat) {s : Sess} {t : Track}
    (hs : s.sink = some t) :
    handleTrackEnd env fuel s true =
      if (retryTrackPlayback env fuel { s with sink := none } t).1 then
        (retryTrackPlayback env fuel { s with sink := none } t).2
      else startNextTrack env fuel (retryTrackPlayback env fuel { s with sink := none } t).2 := by
  unfold handleTrackEnd
  rw [hs]
  simp

theorem handleTrackEnd_inv (env : Env) (fuel : Nat) {s : Sess} (h : Inv s)
    (error : Bool) : Inv (handleTrackEnd env fuel s error) := by
  cases hs : s.sink with
  | none => rw [handleTrackEnd_noSink env fuel hs]; exact h
  | some t =>
    have h0 : Inv { s with sink := none } := invC_sinkNone h
    have htQ : t.id ∉ tids s.queue := h.sinkQ t hs
    have htLast : ∀ l, s.last = some l → t.id ≠ l.id := fun l hl => h.sinkLast t l hs hl
    have htSink : ∀ t', (none : Option Track) = some t' → t.id ≠ t'.id :=
      fun _ ht' => (nomatch ht')
    have htLt : t.id < s.nextId := h.sinkLt t hs
    have hrtp : Inv (retryTrackPlayback env fuel { s with sink := none } t).2 :=
      retryTrackPlayback_inv env fuel h0 htQ htLast htSink htLt
    cases error with
    | false =>
      rw [handleTrackEnd_noError env fuel hs]
      exact startNextTrack_inv env fuel _ h0
    | true =>
      rw [handleTrackEnd_error env fuel hs]
      split
      · exact hrtp
      · exact startNextTrack_inv env fuel _ hrtp

theorem addToQueue_inv (env : Env) (fuel : Nat) {s : Sess} (h : Inv s) :
    Inv (addToQueue env fuel s) := by
  have h1 : Inv (enqueueTrack s) := invC_append h _ rfl
  unfold addToQueue
  split
  · exact startNextTrack_inv env fuel _ h1
  · exact h1

theorem stopTrack_inv {s : Sess} (h : Inv s) (vcPresent : Bool) :
    Inv (stopTrack s vcPresent) := by
  unfold stopTrack
  split
  · exact invC_currentNone h
  · exact h

theorem skipTrack_inv {s : Sess} (h : Inv s) (vcPresent : Bool) :
    Inv (skipTrack s vcPresent) := by
  unfold skipTrack
  split <;> exact h

theorem restartTrack_inv (env : Env) (fuel : Nat) {s : Sess} (h : Inv s)
    (vcPresent playing : Bool) : Inv (restartTrack env fuel s vcPresent playing) := by
  unfold restartTrack
  split
  · exact h
  · rename_i t0 heq
    have h1 : Inv (restartPush s t0) := invC_insertFresh h _ rfl
    split
    · exact h1
    · exact startNextTrack_inv env fuel _ h1

theorem autoReconnectRequeue_inv (env : Env) (fuel : Nat) {s : Sess} (h : Inv s)
    (vcBusy : Bool) : Inv (autoReconnectRequeue env fuel s vcBusy) := by
  unfold autoReconnectRequeue
  split
  · exact h
  · cases hc : s.current with
    | none => exact h
    | some t =>
      have h2 : InvC s.queue (some t) s.last s.sink s.nextId := hc ▸ h
      refine startNextTrack_inv env fuel _ ?_
      refine invC_insertHead (invC_sinkNone h2) ?_ ?_ ?_ ?_
      · exact h2.curQ t rfl
      · exact fun l hl => h2.curLast t l rfl hl
      · exact fun _ ht' => (nomatch ht')
      · exact h2.curLt t rfl

theorem applyOp_inv (env : Env) (fuel : Nat) {s : Sess} (h : Inv s) (op : Op) :
    Inv (applyOp env fuel s op) := by
  cases op with
  | enqueue => exact addToQueue_inv env fuel h
  | trackEnd e => exact handleTrackEnd_inv env fuel h e
  | stop vc => exact stopTrack_inv h vc
  | skip vc => exact skipTrack_inv h vc
  | restart vc playing => exact restartTrack_inv env fuel h vc playing
  | sweep vcBusy => exact autoReconnectRequeue_inv env fuel h vcBusy

theorem runOps_inv (env : Env) (fuel : Nat) :
    ∀ (ops : List Op) (s : Sess), Inv s → Inv (runOps env fuel ops s)
  | [], _, h => h
  | op :: rest, s, h =>
    runOps_inv env fuel rest (applyOp env fuel s op) (applyOp_inv env fuel h op)

theorem initSess_inv : Inv initSess := by
  refine ⟨?_, ?_, ?_, ?_, ?_, ?_, ?_, ?_, ?_, ?_⟩ <;>
    simp [initSess, tids]

/-- The identities held by the three session containers named by the
specification: queue, `current` slot, `last` slot. -/
def heldIds (s : Sess) : List Nat :=
  tids s.queue ++ (s.current.map Track.id).toList ++ (s.last.map Track.id).toList

theorem heldIds_nodup {s : Sess} (h : Inv s) : (heldIds s).Nodup := by
  unfold heldIds
  cases hc : s.current with
  | none =>
    cases hl : s.last with
    | none => simpa using h.nodup
    | some l =>
      show (tids s.queue ++ [] ++ [l.id]).Nodup
      rw [List.append_nil, List.nodup_append]
      refine ⟨h.nodup, List.nodup_singleton _, ?_⟩
      intro i hi hj
      rw [List.mem_singleton] at hj
      exact h.lastQ l hl (hj ▸ hi)
  | some c =>
    cases hl : s.last with
    | none =>
      show (tids s.queue ++ [c.id] ++ []).Nodup
      rw [List.append_nil, List.nodup_append]
      refine ⟨h.nodup, List.nodup_singleton _, ?_⟩
      intro i hi hj
      rw [List.mem_singleton] at hj
      exact h.curQ c hc (hj ▸ hi)
    | some l =>
      show (tids s.queue ++ [c.id] ++ [l.id]).Nodup
      rw [List.append_assoc, List.nodup_append]
      refine ⟨h.nodup, ?_, ?_⟩
      · rw [List.nodup_append]
        refine ⟨List.nodup_singleton _, List.nodup_singleton _, ?_⟩
        intro i hi hj
        rw [List.mem_singleton] at hi hj
        exact h.curLast c l hc hl (hi.symm.trans hj)
      · intro i hi hj
        rcases List.mem_append.mp hj with hj1 | hj2
        · rw [List.mem_singleton] at hj1
          exact h.curQ c hc (hj1 ▸ hi)
        · rw [List.mem_singleton] at hj2
          exact h.lastQ l hl (hj2 ▸ hi)

/-- C1: For every guild (tenant) and every sequence of session operations
(enqueue, advance, retry, skip, stop, restart — `advance` and `retry` are
triggered from within `enqueue`, the sink completion callback, `restart` and
the reconciliation sweep, all of which are included as operations), at most one
track is current for that guild at any time — structurally, because
`self.current_track` has a single slot per guild id, modelled by the
`Option Track` field `current` —, and every point in time is the boundary of
some operation prefix, at which every track object held by the session appears
in exactly one of {queue, current, last}: no identity is counted twice across
the three containers.  The per-guild dictionaries of distinct guilds are
disjoint, so the statement over one guild's session covers all guilds. -/
theorem session_track_ownership (env : Env) (fuel : Nat) (ops : List Op) (i : Nat) :
    (heldIds (runOps env fuel ops initSess)).count i ≤ 1 :=
  List.nodup_iff_count_le_one.mp
    (heldIds_nodup (runOps_inv env fuel ops initSess initSess_inv)) i

/-! ## Claims about the retry policy and the stop command -/

/-- Environment of the exhausted-retry run: `TRACK_RETRY_LIMIT = 1`, a voice
client always available, every sink setup raising, re-resolution never
consulted (it fails if consulted). -/
def envRetryBug : Env :=
  { limit := 1, vcOk := fun _ => true, sinkOk := fun _ => false, refresh := fun _ => none }

/-- A guild whose queue head is a track that has already consumed its one
permitted retry (`_retry_count = 1`). -/
def sRetryBug : Sess :=
  { queue := [{ id := 0, url := 0, retryCount := 1, panelSent := false }],
    current := none, last := none, sink := none, nextId := 1,
    sinkCtr := 0, refreshCtr := 0, vcCtr := 0, attempts := [], panels := [] }

/-- C2: `_retry_track_playback` itself never grants a retry at or above the
limit, but the claim's "once the limit is exhausted that same track is never
re-attempted (it is dropped and advance proceeds)" fails in
`_start_next_track`: when the sink setup raises and the retry is denied, lines
688-690 (and 704-706) re-insert the exhausted track at the queue head and
recurse, so the same track object is sink-attempted again on every recursion
step — here three attempts of track 0 in a fuel-3 run, with the track still
queued (never dropped) afterwards — instead of advancing past it. -/
theorem retry_exhausted_track_reattempted :
    (startNextTrack envRetryBug 3 sRetryBug).attempts = [0, 0, 0] ∧
    (startNextTrack envRetryBug 3 sRetryBug).queue =
      [{ id := 0, url := 0, retryCount := 1, panelSent := false }] := by
  exact ⟨rfl, rfl⟩

/-- C6: when a retry is granted — positive retry limit, `retryCount` below the
limit, re-resolution successful — `_retry_track_playback` increments the
track's retry count by exactly one, overwrites its playable source with the
re-resolved locator, marks the track to suppress the duplicate panel
announcement, re-inserts it at the head of the queue, clears `current`, and
calls `_start_next_track` on exactly that state. -/
theorem retry_grant_effect (env : Env) (fuel : Nat) (s : Sess) (t : Track) (u : Nat)
    (hlim : 0 < env.limit) (hcnt : t.retryCount < env.limit)
    (href : env.refresh s.refreshCtr = some u) :
    retryTrackPlayback env fuel s t =
      (true, startNextTrack env fuel
        { s with
          refreshCtr := s.refreshCtr + 1,
          queue := { t with
                     url := u, retryCount := t.retryCount + 1,
                     panelSent := true } :: s.queue,
          current := none }) := by
  have hcore : retryCore env s t =
      (true,
        { s with
          refreshCtr := s.refreshCtr + 1,
          queue := { t with
                     url := u, retryCount := t.retryCount + 1,
                     panelSent := true } :: s.queue,
          current := none }) := by
    unfold retryCore
    rw [if_neg (by omega), if_neg (by omega), href]
  unfold retryTrackPlayback
  rw [hcore]
  rfl

def envGrantW : Env :=
  { limit := 2, vcOk := fun _ => true, sinkOk := fun _ => true, refresh := fun _ => some 7 }

def sGrantW : Sess :=
  { queue := [], current := some { id := 0, url := 3, retryCount := 0, panelSent := false },
    last := none, sink := none, nextId := 1,
    sinkCtr := 1, refreshCtr := 0, vcCtr := 1, attempts := [0], panels := [] }

theorem retry_grant_effect_witness :
    retryTrackPlayback envGrantW 1 sGrantW { id := 0, url := 3, retryCount := 0, panelSent := false } =
      (true, startNextTrack envGrantW 1
        { sGrantW with
          refreshCtr := 1,
          queue := [{ id := 0, url := 7, retryCount := 1, panelSent := true }],
          current := none }) :=
  retry_grant_effect envGrantW 1 sGrantW
    { id := 0, url := 3, retryCount := 0, panelSent := false } 7
    (by decide) (by decide) rfl

/-- C10: when the playable source cannot be re-resolved
(`_refresh_track_source` yields nothing usable), the retry is denied even
though retries are enabled and the track is below the retry limit: the grant
decision is `False`, the session state is untouched apart from the consumed
re-resolution call (in particular no track's `_retry_count` is incremented and
nothing is re-queued), and the error path of `_handle_track_end` falls through
to the normal `_start_next_track` advance. -/
theorem retry_denied_on_refresh_failure (env : Env) (fuel : Nat) (s : Sess) (t : Track)
    (hs : s.sink = some t)
    (hlim : 0 < env.limit) (hcnt : t.retryCount < env.limit)
    (href : env.refresh s.refreshCtr = none) :
    (retryCore env { s with sink := none } t).1 = false ∧
    (retryCore env { s with sink := none } t).2 =
      { s with sink := none, refreshCtr := s.refreshCtr + 1 } ∧
    handleTrackEnd env fuel s true =
      startNextTrack env fuel { s with sink := none, refreshCtr := s.refreshCtr + 1 } := by
  have hcore : retryCore env { s with sink := none } t =
      (false, { s with sink := none, refreshCtr := s.refreshCtr + 1 }) := by
    unfold retryCore
    rw [if_neg (by omega), if_neg (by omega), href]
  refine ⟨by rw [hcore], by rw [hcore], ?_⟩
  rw [handleTrackEnd_error env fuel hs]
  unfold retryTrackPlayback
  rw [hcore]
  simp

def envDenyW : Env :=
  { limit := 3, vcOk := fun _ => true, sinkOk := fun _ => true, refresh := fun _ => none }

def sDenyW : Sess :=
  { queue := [], current := some { id := 0, url := 3, retryCount := 1, panelSent := false },
    last := none, sink := some { id := 0, url := 3, retryCount := 1, panelSent := false },
    nextId := 1, sinkCtr := 1, refreshCtr := 0, vcCtr := 1, attempts := [0], panels := [] }

theorem retry_denied_on_refresh_failure_witness :
    (retryCore envDenyW { sDenyW with sink := none }
        { id := 0, url := 3, retryCount := 1, panelSent := false }).1 = false ∧
    (retryCore envDenyW { sDenyW with sink := none }
        { id := 0, url := 3, retryCount := 1, panelSent := false }).2 =
      { sDenyW with sink := none, refreshCtr := 1 } ∧
    handleTrackEnd envDenyW 2 sDenyW true =
      startNextTrack envDenyW 2 { sDenyW with sink := none, refreshCtr := 1 } :=
  retry_denied_on_refresh_failure envDenyW 2 sDenyW
    { id := 0, url := 3, retryCount := 1, panelSent := false }
    rfl (by decide) (by decide) rfl

/-- Environment and state of the stop counterexample: track A (id 0) is
current with its sink playing and track B (id 1) is queued behind it. -/
def envStop : Env :=
  { limit := 3, vcOk := fun _ => true, sinkOk := fun _ => true, refresh := fun _ => none }

def tStopB : Track := { id := 1, url := 0, retryCount := 0, panelSent := false }

def sStopCase : Sess :=
  { queue := [tStopB],
    current := some { id := 0, url := 0, retryCount := 0, panelSent := false },
    last := none, sink := some { id := 0, url := 0, retryCount := 0, panelSent := false },
    nextId := 2, sinkCtr := 1, refreshCtr := 0, vcCtr := 1, attempts := [0], panels := [0] }

/-- C5 counterexample: with an active sink playing track 0 and queue `[B]`,
`stop_track` clears `current` without touching the queue — but
`guild.voice_client.stop()` makes the stopped player fire its completion
callback with no error, which runs `_handle_track_end` → `_start_next_track`:
the queued track B is removed from the queue and started (it becomes `current`
with a fresh sink), refuting "no queued track is removed, reordered, or
started as a consequence of stop". -/
theorem stop_starts_next_queued_track :
    sStopCase.queue = [tStopB] ∧
    (handleTrackEnd envStop 2 (stopTrack sStopCase true) false).queue = [] ∧
    (handleTrackEnd envStop 2 (stopTrack sStopCase true) false).current = some tStopB := by
  exact ⟨rfl, rfl, rfl⟩

/-- C5 (amended): for a guild with an active voice sink, `stop_track` itself
stops the sink and clears `current` without re-queuing it, leaving the queue
and the `last` slot untouched; but the stopped sink's completion callback then
performs a normal advance on the stopped state, so the next queued track (when
one exists) is dequeued and started as a consequence of the stop. -/
theorem stop_clears_current_preserves_queue (env : Env) (fuel : Nat) (s : Sess) (t : Track)
    (hs : s.sink = some t) :
    (stopTrack s true).queue = s.queue ∧
    (stopTrack s true).current = none ∧
    (stopTrack s true).last = s.last ∧
    handleTrackEnd env fuel (stopTrack s true) false =
      startNextTrack env fuel { s with current := none, sink := none } := by
  refine ⟨rfl, rfl, rfl, ?_⟩
  have hs2 : (stopTrack s true).sink = some t := hs
  exact handleTrackEnd_noError env fuel hs2

theorem stop_clears_current_preserves_queue_witness :
    (stopTrack sStopCase true).queue = sStopCase.queue ∧
    (stopTrack sStopCase true).current = none ∧
    (stopTrack sStopCase true).last = sStopCase.last ∧
    handleTrackEnd envStop 2 (stopTrack sStopCase true) false =
      startNextTrack envStop 2 { sStopCase with current := none, sink := none } :=
  stop_clears_current_preserves_queue envStop 2 sStopCase
    { id := 0, url := 0, retryCount := 0, panelSent := false } rfl

/-! ## Claims about the manual-disconnect window and the join command -/

/-- C3: for every guild whose manual-disconnect window is active — a manual
leave was recorded at wall-clock time `ts` (positive, as every real
`time.time()` reading is) and `now < manualDisconnectUntil` with
`manualDisconnectUntil = ts + MANUAL_LEAVE_GRACE` — no automatic rejoin is
attempted by any path: the window check `_manual_disconnect_active` answers
true, the disconnect-triggered `_schedule_voice_return` leaves the rejoin
tasks untouched and schedules nothing, a `_voice_return_worker` firing now
attempts no connect or move, and the `_auto_reconnect` reconciliation sweep
attempts no connect or move for that guild, whatever the surrounding
conditions are. -/
theorem manual_disconnect_suppresses_rejoin (ts now grace : Nat) (hpos : 0 < ts)
    (hwin : now < ts + grace) (pending : Bool) (e1 : RejoinEnv) (e2 : SweepEnv) :
    manualDisconnectActive (some ts) now grace = true ∧
    scheduleVoiceReturn (some ts) now grace pending = (pending, false) ∧
    voiceReturnWorker (some ts) now grace e1 = false ∧
    autoReconnectAttempt (some ts) now grace e2 = false := by
  have hact : manualDisconnectActive (some ts) now grace = true := by
    show (if ts = 0 then false else decide (now - ts ≤ grace)) = true
    rw [if_neg (by omega)]
    simp only [decide_eq_true_eq]
    omega
  refine ⟨hact, ?_, ?_, ?_⟩
  · unfold scheduleVoiceReturn
    rw [hact]
    simp
  · unfold voiceReturnWorker
    rw [hact]
    cases e1.guildExists <;> simp
  · unfold autoReconnectAttempt
    rw [hact]
    cases e2.guildExists <;> simp

theorem manual_disconnect_suppresses_rejoin_witness :
    manualDisconnectActive (some 5) 10 15 = true ∧
    scheduleVoiceReturn (some 5) 10 15 false = (false, false) ∧
    voiceReturnWorker (some 5) 10 15 ⟨true, true, false⟩ = false ∧
    autoReconnectAttempt (some 5) 10 15 ⟨true, true, false, false, false⟩ = false :=
  manual_disconnect_suppresses_rejoin 5 10 15 (by decide) (by decide) false
    ⟨true, true, false⟩ ⟨true, true, false, false, false⟩

/-- The guild of the join counterexample: a manual leave was recorded at time
5, the stored voice channel is 3, no voice client connected. -/
def joinStateCE : JoinState := { mark := some 5, storedChannel := some 3, connectedTo := none }

/-- C7 counterexample: an explicit join (via the caller's voice channel 3,
connect succeeding) attempts and performs the connect, but leaves the guild's
`manual_disconnects` record untouched — the mark is still `some 5`, not
cleared, and the manual-disconnect window still tests active immediately
afterwards (time 6, grace 15).  Neither `_manual_join` nor the `join` command
ever writes `self.manual_disconnects`, so the claim's "clears the guild's
manualDisconnectUntil record" is false. -/
theorem join_does_not_clear_manual_disconnect :
    (manualJoin joinStateCE none (some 3) true).1.mark = some 5 ∧
    (manualJoin joinStateCE none (some 3) true).2 = true ∧
    manualDisconnectActive (manualJoin joinStateCE none (some 3) true).1.mark 6 15 = true := by
  exact ⟨rfl, rfl, rfl⟩

/-- C7 (amended): an explicit user "join" whose target resolves (explicit
argument, the caller's voice channel, or the stored channel) attempts an
immediate connect/move to that target voice endpoint — but it does not clear
the guild's `manualDisconnectUntil` record, which only expires once its grace
window elapses. -/
theorem manual_join_attempts_connect_keeps_mark (s : JoinState)
    (chParam userVoice : Option Nat) (ch : Nat) (ok : Bool)
    (htgt : joinTarget chParam userVoice s.storedChannel = some ch) :
    (manualJoin s chParam userVoice ok).2 = true ∧
    (manualJoin s chParam userVoice ok).1.mark = s.mark := by
  unfold manualJoin
  rw [htgt]
  cases ok <;> simp

theorem manual_join_attempts_connect_keeps_mark_witness :
    (manualJoin joinStateCE none (some 3) true).2 = true ∧
    (manualJoin joinStateCE none (some 3) true).1.mark = joinStateCE.mark :=
  manual_join_attempts_connect_keeps_mark joinStateCE none (some 3) 3 true rfl

/-! ## Claims about cache eviction and fetch -/

/-- The entries the eviction loop removes form an oldest-first contiguous run
of the visiting order, and the kept entries are exactly the remaining suffix. -/
theorem evictLoop_take_drop (maxB maxF : Option Nat) :
    ∀ (l : List CacheEntry) (tb tf : Nat),
      (evictLoop maxB maxF l tb tf).2 =
        l.take (evictLoop maxB maxF l tb tf).2.length ∧
      (evictLoop maxB maxF l tb tf).1 =
        l.drop (evictLoop maxB maxF l tb tf).2.length := by
  intro l
  induction l with
  | nil => intro tb tf; simp [evictLoop]
  | cons e rest ih =>
    intro tb tf
    unfold evictLoop
    by_cases hw : withinLimits maxB maxF tb tf = true
    · rw [if_pos hw]
      simp
    · rw [if_neg hw]
      obtain ⟨h1, h2⟩ := ih (tb - e.size) (tf - 1)
      refine ⟨?_, ?_⟩
      · show e :: (evictLoop maxB maxF rest (tb - e.size) (tf - 1)).2 =
          (e :: rest).take ((evictLoop maxB maxF rest (tb - e.size) (tf - 1)).2.length + 1)
        rw [List.take_succ_cons]
        exact congrArg _ h1
      · show (evictLoop maxB maxF rest (tb - e.size) (tf - 1)).1 =
          (e :: rest).drop ((evictLoop maxB maxF rest (tb - e.size) (tf - 1)).2.length + 1)
        rw [List.drop_succ_cons]
        exact h2

/-- When started with the true totals, the eviction loop ends with the kept
entries' totals within every enabled ceiling. -/
theorem evictLoop_within (maxB maxF : Option Nat) :
    ∀ (l : List CacheEntry) (tb tf : Nat),
      tb = (l.map CacheEntry.size).sum → tf = l.length →
      withinLimits maxB maxF
        (((evictLoop maxB maxF l tb tf).1.map CacheEntry.size).sum)
        ((evictLoop maxB maxF l tb tf).1.length) = true := by
  intro l
  induction l with
  | nil =>
    intro tb tf _ _
    show withinLimits maxB maxF (([] : List CacheEntry).map CacheEntry.size).sum
      ([] : List CacheEntry).length = true
    cases maxB <;> cases maxF <;> simp [withinLimits]
  | cons e rest ih =>
    intro tb tf htb htf
    unfold evictLoop
    by_cases hw : withinLimits maxB maxF tb tf = true
    · rw [if_pos hw]
      subst htb htf
      exact hw
    · rw [if_neg hw]
      refine ih (tb - e.size) (tf - 1) ?_ ?_
      · subst htb; simp
      · subst htf; simp

/-- Every removal step of the eviction loop happens in a state whose totals
still exceed some enabled ceiling. -/
theorem evictLoop_minimal (maxB maxF : Option Nat) :
    ∀ (l : List CacheEntry) (tb tf : Nat),
      tb = (l.map CacheEntry.size).sum → tf = l.length →
      ∀ j, j < (evictLoop maxB maxF l tb tf).2.length →
        withinLimits maxB maxF (((l.drop j).map CacheEntry.size).sum)
          (l.length - j) = false := by
  intro l
  induction l with
  | nil =>
    intro tb tf _ _ j hj
    simp [evictLoop] at hj
  | cons e rest ih =>
    intro tb tf htb htf j hj
    unfold evictLoop at hj
    by_cases hw : withinLimits maxB maxF tb tf = true
    · rw [if_pos hw] at hj
      simp at hj
    · rw [if_neg hw] at hj
      cases j with
      | zero =>
        subst htb htf
        simpa using Bool.eq_false_iff.mpr hw
      | succ j =>
        have hj2 : j < (evictLoop maxB maxF rest (tb - e.size) (tf - 1)).2.length := by
          simpa using Nat.lt_of_succ_lt_succ (by simpa using hj)
        have := ih (tb - e.size) (tf - 1) (by subst htb; simp) (by subst htf; simp) j hj2
        simpa using this

/-- C4: after `_cleanup_cache_sync` completes, the kept entries' total bytes
and total file count are within every enabled ceiling (`CACHE_MAX_BYTES` /
`CACHE_MAX_FILES` count as enabled exactly when positive; a zero or negative
value disables that dimension), the removed entries are the least-recently-used
ones — an oldest-first contiguous run of the ascending
`(st_mtime, st_size, path)` order the loop visits, whose complement suffix is
exactly what remains — and an entry is only removed at a step whose running
totals still exceed some enabled ceiling (in particular nothing is removed when
the directory is already within the ceilings). -/
theorem cleanup_cache_spec (maxBytes maxFiles : Int) (files : List CacheEntry) :
    withinLimits (if 0 < maxBytes then some maxBytes.toNat else none)
      (if 0 < maxFiles then some maxFiles.toNat else none)
      (((cleanupCacheSync maxBytes maxFiles files).1.map CacheEntry.size).sum)
      ((cleanupCacheSync maxBytes maxFiles files).1.length) = true ∧
    (cleanupCacheSync maxBytes maxFiles files).2 =
      (sortAsc files).take (cleanupCacheSync maxBytes maxFiles files).2.length ∧
    (cleanupCacheSync maxBytes maxFiles files).1 =
      (sortAsc files).drop (cleanupCacheSync maxBytes maxFiles files).2.length ∧
    (∀ j, j < (cleanupCacheSync maxBytes maxFiles files).2.length →
      withinLimits (if 0 < maxBytes then some maxBytes.toNat else none)
        (if 0 < maxFiles then some maxFiles.toNat else none)
        ((((sortAsc files).drop j).map CacheEntry.size).sum)
        ((sortAsc files).length - j) = false) := by
  unfold cleanupCacheSync
  by_cases hw : withinLimits (if 0 < maxBytes then some maxBytes.toNat else none)
      (if 0 < maxFiles then some maxFiles.toNat else none)
      (((sortAsc files).map CacheEntry.size).sum) (sortAsc files).length = true
  · rw [if_pos hw]
    refine ⟨hw, by simp, by simp, ?_⟩
    intro j hj
    simp at hj
  · rw [if_neg hw]
    refine ⟨?_, ?_, ?_, ?_⟩
    · exact evictLoop_within _ _ (sortAsc files) _ _ rfl rfl
    · exact (evictLoop_take_drop _ _ (sortAsc files) _ _).1
    · exact (evictLoop_take_drop _ _ (sortAsc files) _ _).2
    · exact fun j hj => evictLoop_minimal _ _ (sortAsc files) _ _ rfl rfl j hj

/-- Concrete directory of the eviction witness: three files of 10 bytes with
modification times 1, 2, 3. -/
def cacheFilesW : List CacheEntry :=
  [⟨3, 10, 3⟩, ⟨1, 10, 1⟩, ⟨2, 10, 2⟩]

theorem cleanup_cache_spec_witness :
    withinLimits (some 15) (some 10)
      (((cleanupCacheSync 15 10 cacheFilesW).1.map CacheEntry.size).sum)
      ((cleanupCacheSync 15 10 cacheFilesW).1.length) = true ∧
    (cleanupCacheSync 15 10 cacheFilesW).2 =
      (sortAsc cacheFilesW).take (cleanupCacheSync 15 10 cacheFilesW).2.length ∧
    withinLimits (some 15) (some 10)
      ((((sortAsc cacheFilesW).drop 0).map CacheEntry.size).sum)
      ((sortAsc cacheFilesW).length - 0) = false := by
  obtain ⟨h1, h2, -, h4⟩ := cleanup_cache_spec 15 10 cacheFilesW
  exact ⟨by simpa using h1, h2, by simpa using h4 0 (by decide)⟩

/-- The cache state of the fetch counterexample: one entry at path 1, 10
bytes, last written at time 5; the fetch happens at time 10. -/
def fetchCacheCE : List CacheEntry := [⟨5, 10, 1⟩]

/-- The track of the fetch counterexample: cache path 1, download source 7. -/
def fetchTrackCE : FetchTrack := ⟨some 1, some 7⟩

/-- C8 counterexample: a fetch at time 10 that hits the valid cache entry at
path 1 returns it immediately without downloading — but it leaves the
directory unchanged: the entry's recency stamp is still 5, not the access
time 10.  `_fetch_cache` returns on `dest.exists()` without touching the file
(no `os.utime`/`Path.touch` anywhere in the code), so the claim's "refreshes
the entry's lastAccessTime (the recency stamp used by eviction)" is false: the
stamp eviction sorts by is the write time, never updated on reuse. -/
theorem fetch_hit_does_not_refresh_stamp :
    fetchCache 100 100 10 fetchCacheCE fetchTrackCE true 10 =
      ⟨[⟨5, 10, 1⟩], some 1, false, false⟩ ∧
    ¬ (5 : Nat) = 10 := by
  exact ⟨rfl, by decide⟩

/-- C8 (amended): for a track whose cache path holds a valid cache entry,
`_fetch_cache` returns that cached entry immediately without downloading and
leaves the cache directory — including the entry's recency stamp — unchanged
(the stamp is not refreshed on reuse); a download happens only when no valid
entry exists, and a successful download (performed under the process-wide
bounded-concurrency semaphore) stamps the new entry with the download time and
then triggers `_enforce_cache_limits`. -/
theorem fetch_cache_spec (maxBytes maxFiles : Int) (now : Nat) (cache : List CacheEntry)
    (t : FetchTrack) (downloadOk : Bool) (dlSize : Nat) (p : Nat)
    (hp : t.cachePath = some p) :
    (cacheHas cache p = true →
      fetchCache maxBytes maxFiles now cache t downloadOk dlSize =
        ⟨cache, some p, false, false⟩) ∧
    ((fetchCache maxBytes maxFiles now cache t downloadOk dlSize).downloaded = true →
      cacheHas cache p = false) ∧
    (cacheHas cache p = false → ∀ q, t.sourceRef = some q → downloadOk = true →
      fetchCache maxBytes maxFiles now cache t downloadOk dlSize =
        ⟨enforceCacheLimits maxBytes maxFiles (⟨now, dlSize, p⟩ :: cache),
          some p, true, true⟩) := by
  refine ⟨?_, ?_, ?_⟩
  · intro hh
    simp [fetchCache, hp, hh]
  · intro hd
    by_cases hh : cacheHas cache p = true
    · have hr : fetchCache maxBytes maxFiles now cache t downloadOk dlSize =
          ⟨cache, some p, false, false⟩ := by simp [fetchCache, hp, hh]
      rw [hr] at hd
      simp at hd
    · exact Bool.eq_false_iff.mpr hh
  · intro hh q hq hdl
    simp [fetchCache, hp, hh, hq, hdl]

def fetchMissTrackW : FetchTrack := ⟨some 2, some 7⟩

theorem fetch_cache_spec_witness :
    (cacheHas fetchCacheCE 2 = true →
      fetchCache 100 100 10 fetchCacheCE fetchMissTrackW true 4 =
        ⟨fetchCacheCE, some 2, false, false⟩) ∧
    ((fetchCache 100 100 10 fetchCacheCE fetchMissTrackW true 4).downloaded = true →
      cacheHas fetchCacheCE 2 = false) ∧
    (cacheHas fetchCacheCE 2 = false → ∀ q, fetchMissTrackW.sourceRef = some q →
      true = true →
      fetchCache 100 100 10 fetchCacheCE fetchMissTrackW true 4 =
        ⟨enforceCacheLimits 100 100 (⟨10, 4, 2⟩ :: fetchCacheCE), some 2, true, true⟩) :=
  fetch_cache_spec 100 100 10 fetchCacheCE fetchMissTrackW true 4 2 rfl

/-! ## Claim about the fade-in ramp -/

/-- A cancellation delivered at an iteration the loop actually reaches makes
the loop exit through the cancellation path. -/
theorem fadeLoop_cancelled (target : ℚ) (steps k : Nat) :
    ∀ (rem idx : Nat) (vol : ℚ), idx ≤ k → k < idx + rem →
      (fadeLoop target steps (some k) rem idx vol).2 = true := by
  intro rem
  induction rem with
  | zero =>
    intro idx vol h1 h2
    omega
  | succ rem ih =>
    intro idx vol h1 h2
    unfold fadeLoop
    by_cases hk : k = idx
    · rw [if_pos (by rw [hk])]
    · rw [if_neg (by simp [hk])]
      exact ih (idx + 1) _ (by omega) (by omega)

/-- C9: a fade-in ramp whose task is cancelled before completing (the
cancellation lands while some iteration `k` of the 10-step loop is sleeping)
finishes with the sink volume set directly to the session's target volume —
the `except asyncio.CancelledError` handler and the `finally` clause of
`_fade_in_source` both write `source.volume = target` — so a cancelled fade
never leaves playback below the target volume, whatever the volume had ramped
to. -/
theorem fade_cancelled_restores_target (target v0 : ℚ) (k : Nat)
    (h1 : 1 ≤ k) (h2 : k ≤ 10) :
    fadeInSource target (some k) v0 = (target, true) := by
  have hc : (fadeLoop target 10 (some k) 10 1 v0).2 = true :=
    fadeLoop_cancelled target 10 k 10 1 v0 h1 (by omega)
  show (target, (fadeLoop target 10 (some k) 10 1 v0).2) = (target, true)
  rw [hc]

theorem fade_cancelled_restores_target_witness :
    fadeInSource (1 / 2 : ℚ) (some 3) 0 = ((1 / 2 : ℚ), true) :=
  fade_cancelled_restores_target (1 / 2 : ℚ) 0 3 (by decide) (by decide)

end Mzika
